import Mathlib

/-!
Verification of the contract compliance scoring engine and the travel route
planner of this repository, as a shallow embedding in Lean.

Contract text is modelled as a list of characters (`Str`); JavaScript string
primitives (`includes`, `toLowerCase`, `trim`, `split`) become the
corresponding functions on character lists.  JavaScript numbers are modelled
as `ℚ`/`ℝ`/`ℕ`/`ℤ` as appropriate, with `Math.round` becoming `round`
(round half towards positive infinity, which agrees with JavaScript on the
values arising here).
-/

set_option maxHeartbeats 1000000
set_option linter.unusedVariables false

/-- Contract/file content: a JavaScript string modelled as a list of chars. -/
abbrev Str := List Char

/-- Model of JavaScript `toLowerCase`: ASCII case folding mapped over the
characters.  All keywords used by the rule battery are either already
lowercase ASCII or Chinese (unaffected by case folding). -/
def lowerStr (s : Str) : Str := s.map Char.toLower

/-- Substring containment on char lists: model of JavaScript
`String.prototype.includes`.  The pattern occurs if it is a prefix of some
suffix of the text. -/
def containsSub (pat : Str) : Str → Bool
  | [] => List.isPrefixOf pat []
  | c :: rest => List.isPrefixOf pat (c :: rest) || containsSub pat rest

/-- Contract type enumeration (enum `ContractType` in
contract-file-audit-tool.ts). -/
inductive ContractType
  | visualization_dashboard
  | software_license
  | service_agreement
  | maintenance
  | data_processing
  deriving DecidableEq

/-- Risk level enumeration (enum `RiskLevel`). -/
inductive RiskLevel
  | low
  | medium
  | high
  | critical
  deriving DecidableEq

/-- Status of a compliance check item ('pass' | 'fail' | 'warning'). -/
inductive CheckStatus
  | pass
  | fail
  | warning
  deriving DecidableEq

/-- Interface `ComplianceCheckItem` of the source.  The optional
`recommendation` field is an `Option`. -/
structure ComplianceCheckItem where
  category : String
  requirement : String
  status : CheckStatus
  description : String
  recommendation : Option String
  deriving DecidableEq

/-- One entry of the rule battery of `performComplianceChecks`.  Every rule
predicate in the source is a disjunction of `content.includes(keyword)`
tests, so it is represented by its keyword list. -/
structure ComplianceRule where
  category : String
  requirement : String
  keywords : List Str
  description : String
  failRecommendation : String
  deriving DecidableEq

/-- Evaluation of a rule predicate against (already lowercased) content:
the disjunction of the keyword containment tests. -/
def ruleHolds (content : Str) (r : ComplianceRule) : Bool :=
  r.keywords.any (fun k => containsSub k content)

/-- The four base rules (`baseChecks` in the source), evaluated for every
contract type, in source order. -/
def baseChecks : List ComplianceRule :=
  [ { category := "数据安全", requirement := "数据保护条款",
      keywords := ["数据保护".toList, "data protection".toList, "隐私".toList],
      description := "合同应包含明确的数据保护和隐私条款",
      failRecommendation := "添加数据保护条款，明确数据处理、存储和传输的安全要求" },
    { category := "知识产权", requirement := "知识产权归属",
      keywords := ["知识产权".toList, "intellectual property".toList, "版权".toList],
      description := "合同应明确知识产权归属和使用权限",
      failRecommendation := "明确可视化大屏的知识产权归属，包括数据、设计和代码的所有权" },
    { category := "服务等级", requirement := "SLA条款",
      keywords := ["sla".toList, "服务等级".toList, "可用性".toList, "uptime".toList],
      description := "合同应包含服务等级协议和可用性保证",
      failRecommendation := "添加明确的SLA条款，包括系统可用性、响应时间和故障恢复时间要求" },
    { category := "责任限制", requirement := "责任限制条款",
      keywords := ["责任限制".toList, "liability".toList, "赔偿".toList],
      description := "合同应包含合理的责任限制和赔偿条款",
      failRecommendation := "添加责任限制条款，明确各方在不同情况下的责任范围和赔偿限额" } ]

/-- The three visualization-dashboard domain rules (`visualizationChecks`),
in source order. -/
def visualizationChecks : List ComplianceRule :=
  [ { category := "数据可视化", requirement := "数据来源声明",
      keywords := ["数据来源".toList, "data source".toList, "数据授权".toList],
      description := "应明确数据来源的合法性和授权使用范围",
      failRecommendation := "明确数据来源、获取方式和使用授权，确保数据使用的合法合规性" },
    { category := "技术规范", requirement := "技术标准要求",
      keywords := ["技术标准".toList, "technical standard".toList, "接口规范".toList],
      description := "应包含技术实现标准和接口规范要求",
      failRecommendation := "添加技术标准要求，包括接口规范、数据格式、显示标准等技术细节" },
    { category := "用户体验", requirement := "用户体验标准",
      keywords := ["用户体验".toList, "user experience".toList, "界面设计".toList],
      description := "应包含用户体验和界面设计的标准要求",
      failRecommendation := "明确用户体验标准，包括界面设计规范、交互要求和可访问性标准" } ]

/-- The supplemental warning item appended when an exclusivity clause is
detected. -/
def exclusivityItem : ComplianceCheckItem :=
  { category := "合同条款", requirement := "排他性条款审查",
    status := CheckStatus.warning,
    description := "发现排他性条款，需要仔细评估对业务的影响",
    recommendation := some "评估排他性条款的商业影响，确保不会限制未来业务发展" }

/-- The rule list evaluated for a given contract type (source: `allChecks`). -/
def rulesFor (contractType : ContractType) : List ComplianceRule :=
  if contractType = ContractType.visualization_dashboard
    then baseChecks ++ visualizationChecks else baseChecks

/-- Whether the lowercased content triggers the exclusivity supplemental
rule. -/
def exclusivityTriggered (content : Str) : Bool :=
  containsSub "排他性".toList content || containsSub "exclusive".toList content

/-- The check item produced for one rule (body of the `allChecks.forEach`
loop in the source). -/
def itemOfRule (content : Str) (check : ComplianceRule) : ComplianceCheckItem :=
  let passed := ruleHolds content check
  { category := check.category
    requirement := check.requirement
    status := if passed then CheckStatus.pass else CheckStatus.fail
    description := check.description
    recommendation := if passed then none else some check.failRecommendation }

/-- Function `performComplianceChecks` of the source: lowercase the content,
evaluate the base rules (plus domain rules for visualization dashboards),
then append the exclusivity warning item when triggered. -/
def performComplianceChecks (contractContent : Str) (contractType : ContractType) :
    List ComplianceCheckItem :=
  let content := lowerStr contractContent
  let checks := (rulesFor contractType).map (itemOfRule content)
  checks ++ (if exclusivityTriggered content then [exclusivityItem] else [])

/-- Number of pass-status items. -/
def passCount (checks : List ComplianceCheckItem) : ℕ :=
  (checks.filter (fun c => c.status = CheckStatus.pass)).length

/-- Number of warning-status items. -/
def warningCount (checks : List ComplianceCheckItem) : ℕ :=
  (checks.filter (fun c => c.status = CheckStatus.warning)).length

/-- Number of fail-status items. -/
def failCount (checks : List ComplianceCheckItem) : ℕ :=
  (checks.filter (fun c => c.status = CheckStatus.fail)).length

/-- Function `calculateComplianceScore` of the source: passes score full
marks, warnings half marks, failures nothing; the ratio is scaled to 100 and
rounded (`Math.round`); an empty check list yields 0. -/
def calculateComplianceScore (checks : List ComplianceCheckItem) : ℤ :=
  if checks.length = 0 then 0
  else
    round (((passCount checks : ℚ) + (warningCount checks : ℚ) * (0.5 : ℚ))
      / (checks.length : ℚ) * 100)

/-- The categories whose failure forces Critical risk
(`criticalCategories` in `determineRiskLevel`). -/
def criticalCategories : List String := ["数据安全", "知识产权"]

/-- Number of fail-status items in a critical category. -/
def criticalFailCount (checks : List ComplianceCheckItem) : ℕ :=
  (checks.filter (fun c =>
    c.status = CheckStatus.fail ∧ c.category ∈ criticalCategories)).length

/-- Function `determineRiskLevel` of the source: the priority-ordered
threshold cascade. -/
def determineRiskLevel (checks : List ComplianceCheckItem) (score : ℤ) : RiskLevel :=
  if criticalFailCount checks > 0 ∨ score < 50 then RiskLevel.critical
  else if failCount checks > 2 ∨ score < 70 then RiskLevel.high
  else if failCount checks > 0 ∨ score < 85 then RiskLevel.medium
  else RiskLevel.low

/-- The categories whose failures are listed as critical issues
(in `identifyCriticalIssues`). -/
def criticalIssueCategories : List String := ["数据安全", "知识产权", "责任限制"]

/-- Function `identifyCriticalIssues` of the source: fail items in the
designated categories, formatted "category: requirement", in check order. -/
def identifyCriticalIssues (checks : List ComplianceCheckItem) : List String :=
  ((checks.filter (fun c => c.status = CheckStatus.fail)).filter
      (fun c => c.category ∈ criticalIssueCategories)).map
    (fun c => c.category ++ ": " ++ c.requirement)

/-- The two fixed recommendations appended for visualization dashboards. -/
def dashboardExtraRecommendations : List String :=
  [ "建议添加数据刷新频率和实时性要求的具体条款",
    "明确可视化效果的验收标准和测试方法" ]

/-- Function `generateRecommendations` of the source. -/
def generateRecommendations (checks : List ComplianceCheckItem)
    (contractType : ContractType) : List String :=
  ((checks.filter (fun c => c.status = CheckStatus.fail)).filterMap
      (fun c => c.recommendation))
    ++ (if contractType = ContractType.visualization_dashboard
        then dashboardExtraRecommendations else [])

/-- Localized contract-type label (`typeMap` in `generateSummary`). -/
def contractTypeLabel : ContractType → String
  | ContractType.visualization_dashboard => "可视化大屏"
  | ContractType.software_license => "软件许可"
  | ContractType.service_agreement => "服务协议"
  | ContractType.maintenance => "维护服务"
  | ContractType.data_processing => "数据处理"

/-- Localized risk-level label (`riskMap` in `generateSummary`). -/
def riskLevelLabel : RiskLevel → String
  | RiskLevel.low => "低风险"
  | RiskLevel.medium => "中等风险"
  | RiskLevel.high => "高风险"
  | RiskLevel.critical => "严重风险"

/-- Function `generateSummary` of the source. -/
def generateSummary (score : ℤ) (riskLevel : RiskLevel)
    (contractType : ContractType) : String :=
  contractTypeLabel contractType ++ "合同文件合规审核完成。合规得分："
    ++ toString score ++ "分，风险等级：" ++ riskLevelLabel riskLevel ++ "。"
    ++ (if score ≥ 85 then "合同整体合规性良好。"
        else if score ≥ 70 then "合同存在一些合规问题，建议优化。"
        else "合同存在重要合规风险，需要重点关注和改进。")

/-- Result of `performDirectAudit` (a `FileAuditResult` without the file
metadata).  The audit timestamp is passed in explicitly (`new Date()` in the
source). -/
structure DirectAuditResult where
  contractId : String
  contractType : ContractType
  overallRiskLevel : RiskLevel
  complianceScore : ℤ
  complianceChecks : List ComplianceCheckItem
  summary : String
  criticalIssues : List String
  recommendations : List String
  auditTimestamp : String
  deriving DecidableEq

/-- Function `performDirectAudit` of the source (the `companyName` argument
is accepted but unused there as well). -/
def performDirectAudit (contractContent : Str) (contractType : ContractType)
    (contractId : String) (companyName : Option String) (now : String) :
    DirectAuditResult :=
  let complianceChecks := performComplianceChecks contractContent contractType
  let complianceScore := calculateComplianceScore complianceChecks
  { contractId := contractId
    contractType := contractType
    overallRiskLevel := determineRiskLevel complianceChecks complianceScore
    complianceScore := complianceScore
    complianceChecks := complianceChecks
    summary := generateSummary complianceScore
      (determineRiskLevel complianceChecks complianceScore) contractType
    criticalIssues := identifyCriticalIssues complianceChecks
    recommendations := generateRecommendations complianceChecks contractType
    auditTimestamp := now }

/-! ## File-audit wrapper (file-parser-tool.ts and auditContractFile)

The binary pieces of the parser (buffer handling, PDF/DOCX byte scraping,
regex cleanup of the scraped text) are external text extraction; they enter
the model as explicit arguments (`detectedMimeType`, `extraction`).  The
validation gates, the 50-character minimum, the failure records and the
wrapper control flow are translated from the source. -/

/-- File metadata record attached to parse and audit results. -/
structure FileMetadata where
  fileName : Str
  fileType : String
  fileSize : ℕ
  pageCount : Option ℕ
  wordCount : ℕ
  extractedAt : String
  deriving DecidableEq

/-- Interface `FileParseResult` of file-parser-tool.ts. -/
structure FileParseResult where
  content : Str
  metadata : FileMetadata
  success : Bool
  error : Option String
  deriving DecidableEq

/-- Interface `FileAuditResult` of contract-file-audit-tool.ts. -/
structure FileAuditResult where
  contractId : String
  contractType : ContractType
  overallRiskLevel : RiskLevel
  complianceScore : ℤ
  complianceChecks : List ComplianceCheckItem
  summary : String
  criticalIssues : List String
  recommendations : List String
  auditTimestamp : String
  fileMetadata : FileMetadata
  extractedContent : Option Str
  deriving DecidableEq

/-- MIME constant `SupportedFileTypes.PDF`. -/
def mimePDF : String := "application/pdf"

/-- MIME constant `SupportedFileTypes.DOCX`. -/
def mimeDOCX : String :=
  "application/vnd.openxmlformats-officedocument.wordprocessingml.document"

/-- MIME constant `SupportedFileTypes.DOC`. -/
def mimeDOC : String := "application/msword"

/-- MIME constant `SupportedFileTypes.TXT`. -/
def mimeTXT : String := "text/plain"

/-- Model of JavaScript `split('.')`: splits into (possibly empty) chunks
between the dots; the result is never the empty list. -/
def splitOnDot : Str → List Str
  | [] => [[]]
  | c :: rest =>
    match splitOnDot rest with
    | [] => [[]]
    | h :: t => if c = '.' then [] :: h :: t else (c :: h) :: t

/-- Model of `fileName.split('.').pop()?.toLowerCase()`: the lowercased last
chunk. -/
def extensionOf (fileName : Str) : Str :=
  lowerStr ((splitOnDot fileName).getLastD [])

/-- Model of JavaScript `a || b` on strings: the empty string is falsy. -/
def orElseStr (m : Option String) (fallback : String) : String :=
  match m with
  | some s => if s = "" then fallback else s
  | none => fallback

/-- Function `detectMimeType` as invoked by `validateFileType`: the buffer
passed there is `new ArrayBuffer(0)`, so the magic-number branch (which
needs at least 4 bytes) never fires and only the extension switch remains. -/
def detectMimeTypeNoBuffer (fileName : Str) : String :=
  let extension := extensionOf fileName
  if extension = "pdf".toList then mimePDF
  else if extension = "docx".toList then mimeDOCX
  else if extension = "doc".toList then mimeDOC
  else if extension = "txt".toList then mimeTXT
  else "unknown"

/-- Function `validateFileType` of file-parser-tool.ts. -/
def validateFileType (fileName : Str) (mimeType : Option String) : Bool :=
  let extension := extensionOf fileName
  let detectedMimeType := orElseStr mimeType (detectMimeTypeNoBuffer fileName)
  (extension ≠ [] ∧ (extension = "pdf".toList ∨ extension = "txt".toList))
    ∨ (detectedMimeType ≠ "" ∧ (detectedMimeType = mimePDF ∨ detectedMimeType = mimeTXT))

/-- Model of JavaScript `String.prototype.trim`. -/
def trimStr (s : Str) : Str :=
  ((s.dropWhile Char.isWhitespace).reverse.dropWhile Char.isWhitespace).reverse

/-- CJK unified ideograph test (the /[一-鿿]/ character class). -/
def isCjkChar (c : Char) : Bool := 0x4e00 ≤ c.toNat ∧ c.toNat ≤ 0x9fff

/-- ASCII letter test (the /[a-zA-Z]/ character class). -/
def isAsciiLetterChar (c : Char) : Bool :=
  ('a' ≤ c ∧ c ≤ 'z') ∨ ('A' ≤ c ∧ c ≤ 'Z')

/-- Number of maximal runs of ASCII letters (matches of /[a-zA-Z]+/g); the
flag records whether the previous character was a letter. -/
def alphaRunCount : Str → Bool → ℕ
  | [], _ => 0
  | c :: rest, inRun =>
    if isAsciiLetterChar c then
      (if inRun then 0 else 1) + alphaRunCount rest true
    else alphaRunCount rest false

/-- Function `countWords`: Chinese characters count one each, English
words count by maximal letter runs. -/
def countWords (text : Str) : ℕ :=
  (text.filter isCjkChar).length + alphaRunCount text false

/-- The failure `FileParseResult` produced by the catch block of
`parseContractFile`: empty content, zeroed word count, `success = false`. -/
def parseFailureResult (fileName : Str) (mimeType : Option String)
    (bufferSize : ℕ) (errMsg : String) (now : String) : FileParseResult :=
  { content := []
    metadata :=
      { fileName := fileName
        fileType := orElseStr mimeType "unknown"
        fileSize := bufferSize
        pageCount := none
        wordCount := 0
        extractedAt := now }
    success := false
    error := some errMsg }

/-- Function `parseContractFile`, modelled relative to its external pieces:
`detectedMimeType` is the result of `detectMimeType` on the real buffer, and
`extraction` is the outcome of the per-format extraction followed by
`cleanExtractedContent` — `Except.error` for a thrown extraction error
(unsupported type, PDF/DOCX failure), `Except.ok` carrying the cleaned text
and the estimated page count.  The size gate, the 50-character minimum gate
and the success/failure records are translated from the source; thrown
errors land in `parseFailureResult`. -/
def parseContractFile (fileName : Str) (mimeType : Option String)
    (bufferSize : ℕ) (detectedMimeType : String)
    (extraction : Except String (Str × Option ℕ)) (now : String) :
    FileParseResult :=
  if bufferSize > 10 * 1024 * 1024 then
    parseFailureResult fileName mimeType bufferSize
      ("文件大小超过限制 (" ++ toString ((bufferSize + 524288) / 1048576)
        ++ "MB > 10MB)") now
  else
    match extraction with
    | Except.error e => parseFailureResult fileName mimeType bufferSize e now
    | Except.ok (extractedContent, pageCount) =>
      if extractedContent = [] ∨ (trimStr extractedContent).length < 50 then
        parseFailureResult fileName mimeType bufferSize
          "无法从文件中提取到足够的文本内容，请检查文件是否损坏或为空" now
      else
        { content := extractedContent
          metadata :=
            { fileName := fileName
              fileType :=
                if detectedMimeType = "" then
                  "file/" ++ String.mk (extensionOf fileName)
                else detectedMimeType
              fileSize := bufferSize
              pageCount := pageCount
              wordCount := countWords extractedContent
              extractedAt := now }
          success := true
          error := none }

/-- The single fail-status check item of the synthetic failure audit
result. -/
def parseFailureCheckItem : ComplianceCheckItem :=
  { category := "文件处理", requirement := "文件解析",
    status := CheckStatus.fail,
    description := "文件解析或审核过程中发生错误",
    recommendation := some "请检查文件格式和内容是否正确" }

/-- The recommendations of the synthetic failure audit result. -/
def failureRecommendations : List String :=
  [ "请检查文件格式是否正确（支持PDF、TXT）",
    "确保文件未损坏且包含文本内容",
    "如果是DOCX文件，请转换为PDF或TXT格式" ]

/-- The synthetic failure `FileAuditResult` built in the catch block of
`auditContractFile`. -/
def auditFailureResult (contractId : String) (contractType : ContractType)
    (errMsg : String) (fileName : Str) (mimeType : Option String)
    (fileSize : ℕ) (includeExtractedContent : Bool) (now : String) :
    FileAuditResult :=
  { contractId := contractId
    contractType := contractType
    overallRiskLevel := RiskLevel.critical
    complianceScore := 0
    complianceChecks := [parseFailureCheckItem]
    summary := "文件审核失败: " ++ errMsg
    criticalIssues := ["文件处理: 文件解析失败"]
    recommendations := failureRecommendations
    auditTimestamp := now
    fileMetadata :=
      { fileName := fileName
        fileType := orElseStr mimeType "unknown"
        fileSize := fileSize
        pageCount := none
        wordCount := 0
        extractedAt := now }
    extractedContent := if includeExtractedContent then some [] else none }

/-- The message of the unsupported-file-type error thrown by
`auditContractFile`. -/
def unsupportedTypeMessage : String :=
  "不支持的文件类型。在Cloudflare Workers环境下支持的格式: PDF, TXT"

/-- Function `auditContractFile` of contract-file-audit-tool.ts
(`parseResult` is the value returned by the parser tool for this file).
An invalid file type or an unsuccessful parse throws inside the try block;
both throws land in the catch block, i.e. in `auditFailureResult` — no
failure propagates to the caller. -/
def auditContractFile (fileBufferSize : ℕ) (fileName : Str)
    (contractType : ContractType) (contractId : String)
    (companyName : Option String) (mimeType : Option String)
    (includeExtractedContent : Bool) (parseResult : FileParseResult)
    (now : String) : FileAuditResult :=
  if validateFileType fileName mimeType = false then
    auditFailureResult contractId contractType unsupportedTypeMessage
      fileName mimeType fileBufferSize includeExtractedContent now
  else if parseResult.success = false then
    auditFailureResult contractId contractType
      ("文件解析失败: " ++ parseResult.error.getD "undefined")
      fileName mimeType fileBufferSize includeExtractedContent now
  else
    let audit := performDirectAudit parseResult.content contractType
      contractId companyName now
    { contractId := audit.contractId
      contractType := audit.contractType
      overallRiskLevel := audit.overallRiskLevel
      complianceScore := audit.complianceScore
      complianceChecks := audit.complianceChecks
      summary := audit.summary
      criticalIssues := audit.criticalIssues
      recommendations := audit.recommendations
      auditTimestamp := audit.auditTimestamp
      fileMetadata := parseResult.metadata
      extractedContent :=
        if includeExtractedContent then some parseResult.content else none }

/-! ## Travel route planner (travel-route-tool.ts)

Coordinates and distances are modelled over ℝ (JavaScript floats become
reals); the geocoding network lookup is external and enters the model as the
list of resolved results. -/

/-- Model of JavaScript `Math.atan2` (standard two-argument arctangent). -/
noncomputable def atan2 (y x : ℝ) : ℝ :=
  if 0 < x then Real.arctan (y / x)
  else if x < 0 ∧ 0 ≤ y then Real.arctan (y / x) + Real.pi
  else if x < 0 ∧ y < 0 then Real.arctan (y / x) - Real.pi
  else if x = 0 ∧ 0 < y then Real.pi / 2
  else if x = 0 ∧ y < 0 then -(Real.pi / 2)
  else 0

/-- Function `calculateDistance`: the haversine great-circle distance with
Earth radius 6371 km. -/
noncomputable def calculateDistance (lat1 lon1 lat2 lon2 : ℝ) : ℝ :=
  let dLat := (lat2 - lat1) * Real.pi / 180
  let dLon := (lon2 - lon1) * Real.pi / 180
  let a := Real.sin (dLat / 2) * Real.sin (dLat / 2)
    + Real.cos (lat1 * Real.pi / 180) * Real.cos (lat2 * Real.pi / 180)
      * Real.sin (dLon / 2) * Real.sin (dLon / 2)
  let c := 2 * atan2 (Real.sqrt a) (Real.sqrt (1 - a))
  6371 * c

/-- Interface `RouteData` of travel-route-tool.ts. -/
structure RouteData where
  name : String
  latitude : ℝ
  longitude : ℝ
  country : String
  region : Option String
  attractions : Option (List String)
  travelTime : Option ℕ
  transportation : Option String
  description : Option String
  deriving Inhabited

/-- Haversine distance between two route locations. -/
noncomputable def locDistance (a b : RouteData) : ℝ :=
  calculateDistance a.latitude a.longitude b.latitude b.longitude

/-- The `remaining.forEach` scan of `optimizeRoute`, carrying the pair
(index of current best, distance of current best).  The JavaScript initial
best is `(0, Infinity)`, which the first iteration always replaces (every
distance is a finite real, hence below Infinity); the scan is therefore
seeded with the first remaining location, see `nearestIdx`. -/
noncomputable def nearestGo (d : RouteData → ℝ) :
    List RouteData → ℕ → ℕ × ℝ → ℕ
  | [], _, best => best.1
  | l :: ls, i, best =>
    if d l < best.2 then nearestGo d ls (i + 1) (i, d l)
    else nearestGo d ls (i + 1) best

/-- Index (into `remaining`) of the nearest unplaced location: first index
under strict `<` improvement, exactly as the source scan. -/
noncomputable def nearestIdx (d : RouteData → ℝ) : List RouteData → ℕ
  | [] => 0
  | l :: ls => nearestGo d ls 1 (0, d l)

/-- Upper bound for the scan result: it is either the seeded best index or
one of the scanned positions. -/
theorem nearestGo_lt (d : RouteData → ℝ) (n : ℕ) :
    ∀ (ls : List RouteData) (i : ℕ) (best : ℕ × ℝ),
      best.1 < n → i + ls.length ≤ n → nearestGo d ls i best < n := by
  intro ls
  induction ls with
  | nil => intro i best hb _; simpa [nearestGo] using hb
  | cons l ls ih =>
    intro i best hb hi
    simp only [nearestGo]
    by_cases h : d l < best.2
    · simp only [h, if_true]
      exact ih (i + 1) (i, d l) (by simp at hi ⊢; omega) (by simp at hi ⊢; omega)
    · simp only [h, if_false]
      exact ih (i + 1) best hb (by simp at hi ⊢; omega)

/-- The chosen index is always inside the remaining list. -/
theorem nearestIdx_lt (d : RouteData → ℝ) (rem : List RouteData)
    (h : rem ≠ []) : nearestIdx d rem < rem.length := by
  match rem with
  | [] => exact absurd rfl h
  | l :: ls =>
    simp only [nearestIdx, List.length_cons]
    exact nearestGo_lt d (ls.length + 1) ls 1 (0, d l) (by omega) (by omega)

/-- The `while (remaining.length > 0)` loop of `optimizeRoute`: append the
nearest remaining location (splicing it out of `remaining`), then continue
from it. -/
noncomputable def optimizeLoop (cur : RouteData) (rem : List RouteData) :
    List RouteData :=
  match _hrem : rem with
  | [] => []
  | r :: rs =>
    let i := nearestIdx (locDistance cur) (r :: rs)
    let x := (r :: rs).getD i cur
    x :: optimizeLoop x ((r :: rs).eraseIdx i)
termination_by rem.length
decreasing_by
  have hlt : nearestIdx (locDistance cur) (r :: rs) < rs.length + 1 := by
    have h := nearestIdx_lt (locDistance cur) (r :: rs) (by simp)
    simpa using h
  simp [List.length_eraseIdx, hlt]

/-- Function `optimizeRoute`: lists of at most two locations are returned
unchanged, otherwise the nearest-neighbour loop runs from the first
location. -/
noncomputable def optimizeRoute (locations : List RouteData) :
    List RouteData :=
  if locations.length ≤ 2 then locations
  else
    match locations with
    | [] => []
    | l :: ls => l :: optimizeLoop l ls

/-- Function `calculateTotalDistance`: the sum of consecutive-pair
distances. -/
noncomputable def calculateTotalDistance : List RouteData → ℝ
  | [] => 0
  | [_] => 0
  | a :: b :: rest => locDistance a b + calculateTotalDistance (b :: rest)

/-- Travel style enumeration ('budget' | 'comfort' | 'luxury'). -/
inductive TravelStyle
  | budget
  | comfort
  | luxury
  deriving DecidableEq

/-- Substring test on strings (JavaScript `hay.includes(pat)`). -/
def strContains (hay pat : String) : Bool := containsSub pat.toList hay.toList

/-- Bidirectional fuzzy match of `getAttractions`. -/
def fuzzyBothWays (locationName key : String) : Bool :=
  strContains locationName.toLower key.toLower
    || strContains key.toLower locationName.toLower

/-- The `attractionsMap` table. -/
def attractionsMap : List (String × List String) :=
  [ ("Paris", ["埃菲尔铁塔", "卢浮宫", "圣母院", "香榭丽舍大街", "凯旋门"]),
    ("London", ["大本钟", "白金汉宫", "伦敦眼", "大英博物馆", "塔桥"]),
    ("Tokyo", ["浅草寺", "东京塔", "皇居", "新宿", "涩谷"]),
    ("New York", ["自由女神像", "中央公园", "时代广场", "帝国大厦", "布鲁克林大桥"]),
    ("Beijing", ["故宫", "天安门广场", "长城", "天坛", "颐和园"]),
    ("Shanghai", ["外滩", "东方明珠", "豫园", "南京路", "新天地"]),
    ("Rome", ["斗兽场", "梵蒂冈", "特雷维喷泉", "万神殿", "西班牙阶梯"]),
    ("Barcelona", ["圣家堂", "巴塞罗那哥特区", "公园桂尔", "巴特略之家", "兰布拉大道"]) ]

/-- Function `getAttractions`: first fuzzy table match, else three generic
placeholder strings. -/
def getAttractions (locationName : String) : List String :=
  match attractionsMap.find? (fun e => fuzzyBothWays locationName e.1) with
  | some e => e.2
  | none =>
    [locationName ++ "主要景点", locationName ++ "历史文化区",
      locationName ++ "自然风光"]

/-- The `daysMap` table. -/
def daysMap : List (String × ℕ) :=
  [ ("Paris", 3), ("London", 3), ("Tokyo", 4), ("New York", 3),
    ("Beijing", 3), ("Shanghai", 2), ("Rome", 3), ("Barcelona", 2) ]

/-- Function `getRecommendedDays`: first one-directional fuzzy match,
else the default of 2 days. -/
def getRecommendedDays (locationName : String) : ℕ :=
  match daysMap.find? (fun e => strContains locationName.toLower e.1.toLower) with
  | some e => e.2
  | none => 2

/-- Function `getTransportationMethod` (the enum makes the JavaScript
fallback branch unreachable). -/
def getTransportationMethod : TravelStyle → String
  | TravelStyle.budget => "公共交通/经济航班"
  | TravelStyle.comfort => "高铁/商务航班"
  | TravelStyle.luxury => "头等舱/私人交通"

/-- Function `getTransportationForSegment`: the first stop has no incoming
segment; otherwise ground transport below 300 km and flights above. -/
noncomputable def getTransportationForSegment (src : Option RouteData)
    (dst : RouteData) (style : TravelStyle) : String :=
  match src with
  | none => "到达目的地"
  | some f =>
    if locDistance f dst < 300 then
      match style with
      | TravelStyle.luxury => "私人包车"
      | TravelStyle.comfort => "高铁/快车"
      | TravelStyle.budget => "长途巴士"
    else
      match style with
      | TravelStyle.luxury => "头等舱航班"
      | TravelStyle.comfort => "商务舱航班"
      | TravelStyle.budget => "经济舱航班"

/-- Function `getEstimatedCost` with the per-style daily rates constant
folded (budget 200×1, comfort 500×1.5, luxury 1200×2.5); the location name
is accepted and ignored as in the source. -/
def getEstimatedCost (locationName : String) (style : TravelStyle) : String :=
  match style with
  | TravelStyle.budget => "¥200-200/天"
  | TravelStyle.comfort => "¥500-750/天"
  | TravelStyle.luxury => "¥1200-3000/天"

/-- Function `getOverallBudget`.  The total is a multiple of 100, so
`total * 1.3` is the integer `total * 13 / 10`; `toLocaleString` is
modelled as plain decimal printing (separators are presentation only). -/
def getOverallBudget (destinations : ℕ) (duration : ℕ)
    (style : TravelStyle) : String :=
  let base :=
    match style with
    | TravelStyle.budget => duration * 300
    | TravelStyle.comfort => duration * 800
    | TravelStyle.luxury => duration * 2000
  let total := base + destinations * 1000
  "¥" ++ toString total ++ " - ¥" ++ toString (total * 13 / 10)

/-- Function `getBestTravelTime`: a constant string regardless of input. -/
def getBestTravelTime (locations : List RouteData) : String :=
  "春季和秋季是大多数目的地的最佳旅行时间，天气宜人，游客相对较少"

/-- Function `generateTravelTips`. -/
def generateTravelTips (locations : List RouteData) (style : TravelStyle)
    (duration : ℕ) : List String :=
  let base :=
    [ "提前预订住宿和交通，可以获得更好的价格",
      "建议购买旅行保险，确保旅途安全",
      "准备好各国的签证和护照，检查有效期",
      "下载离线地图和翻译APP，方便出行" ]
  let withStyle := base ++
    (match style with
     | TravelStyle.budget =>
        [ "寻找当地美食街和市场，体验地道文化的同时节省费用",
          "选择青年旅社或民宿，既经济又能结识新朋友" ]
     | TravelStyle.luxury =>
        [ "预订米其林星级餐厅，享受顶级美食体验",
          "考虑私人导游服务，获得更深入的文化体验" ]
     | TravelStyle.comfort => [])
  let withDuration := withStyle ++
    (if duration > 10 then ["长途旅行建议适当安排休息日，避免过度疲劳"] else [])
  withDuration ++
    (if locations.length > 3 then ["多城市旅行建议轻装出行，可以在当地购买纪念品"] else [])

/-- The `descriptions` table of `getLocationDescription`. -/
def descriptionsMap : List (String × String) :=
  [ ("Paris", "浪漫之都巴黎，拥有世界级的艺术博物馆、优雅的建筑和美食文化"),
    ("London", "历史悠久的伦敦，融合了传统与现代，是文化和金融的重要中心"),
    ("Tokyo", "现代化的东京，传统日本文化与尖端科技的完美结合"),
    ("New York", "不夜城纽约，世界文化和商业的交汇点，充满无限可能"),
    ("Beijing", "中国首都北京，拥有丰富的历史文化遗产和现代都市风貌"),
    ("Shanghai", "国际化大都市上海，东西方文化交融的现代化城市"),
    ("Rome", "永恒之城罗马，拥有2000多年历史的古老文明"),
    ("Barcelona", "艺术之城巴塞罗那，高迪的建筑艺术和地中海风情的完美结合") ]

/-- Function `getLocationDescription`. -/
def getLocationDescription (locationName : String) : String :=
  match descriptionsMap.find?
      (fun e => strContains locationName.toLower e.1.toLower) with
  | some e => e.2
  | none => "探索" ++ locationName ++ "的独特魅力和文化风情"

/-- One geocoding lookup result (the fields of the Open-Meteo response used
by `planTravelRoute`); the network lookup itself is external. -/
structure GeoResult where
  name : String
  latitude : ℝ
  longitude : ℝ
  country : String
  admin1 : Option String
  deriving Inhabited

/-- The `RouteData` record pushed for one resolved geocoding result in the
destination loop of `planTravelRoute`. -/
def resolveLocation (style : TravelStyle) (g : GeoResult) : RouteData :=
  { name := g.name
    latitude := g.latitude
    longitude := g.longitude
    country := g.country
    region := g.admin1
    attractions := some (getAttractions g.name)
    travelTime := some (getRecommendedDays g.name)
    transportation := some (getTransportationMethod style)
    description := some (getLocationDescription g.name) }

/-- One stop of the final route (element of the output `route` array). -/
structure PlaceStop where
  name : String
  latitude : ℝ
  longitude : ℝ
  country : String
  region : Option String
  order : ℕ
  recommendedDays : ℕ
  attractions : List String
  transportation : String
  estimatedCost : String
  description : String

/-- The element map building `detailedRoute`: `index` is the position of
`loc` in the optimized order `ord`, and `n` the resolved location count. -/
noncomputable def detailStop (style : TravelStyle) (duration n : ℕ)
    (ord : List RouteData) (index : ℕ) (loc : RouteData) : PlaceStop :=
  { name := loc.name
    latitude := loc.latitude
    longitude := loc.longitude
    country := loc.country
    region := loc.region
    order := index + 1
    recommendedDays := max 1 (duration / n)
    attractions := loc.attractions.getD []
    transportation := getTransportationForSegment
      (if index = 0 then none else ord[index - 1]?) loc style
    estimatedCost := getEstimatedCost loc.name style
    description := loc.description.getD ("Explore the beautiful " ++ loc.name) }

/-- The `optimizedRoute.map((location, index) => ...)` step. -/
noncomputable def detailRoute (style : TravelStyle) (duration n : ℕ)
    (ord : List RouteData) : List PlaceStop :=
  ord.enum.map (fun p => detailStop style duration n ord p.1 p.2)

/-- The output record of `planTravelRoute` (`totalDistance` already passed
through `Math.round`). -/
structure RoutePlan where
  route : List PlaceStop
  totalDistance : ℤ
  totalDuration : ℕ
  estimatedBudget : String
  bestTravelTime : String
  tips : List String

/-- Function `planTravelRoute`, modelled relative to the resolved geocoding
results (unresolvable names are already absent, as in the source where they
are silently skipped).  With no resolved destination the thrown error is
re-thrown by the surrounding catch with the wrapper message. -/
noncomputable def planTravelRoute (results : List GeoResult)
    (travelStyle : TravelStyle) (duration : ℕ)
    (startLocation : Option String) : Except String RoutePlan :=
  let locations := results.map (resolveLocation travelStyle)
  if locations.length = 0 then
    Except.error "Failed to plan travel route: No valid destinations found"
  else
    let optimizedRoute := optimizeRoute locations
    let totalDistance := calculateTotalDistance optimizedRoute
    Except.ok
      { route := detailRoute travelStyle duration locations.length optimizedRoute
        totalDistance := round totalDistance
        totalDuration := duration
        estimatedBudget := getOverallBudget locations.length duration travelStyle
        bestTravelTime := getBestTravelTime optimizedRoute
        tips := generateTravelTips optimizedRoute travelStyle duration }

/-! ## Helper lemmas for the scoring engine -/

theorem length_filter_pos_iff {α : Type} (l : List α) (p : α → Bool) :
    0 < (l.filter p).length ↔ ∃ x ∈ l, p x = true := by
  simp [List.length_pos_iff_exists_mem, List.mem_filter]

theorem passCount_add_warningCount_le (checks : List ComplianceCheckItem) :
    passCount checks + warningCount checks ≤ checks.length := by
  induction checks with
  | nil => simp [passCount, warningCount]
  | cons i is ih =>
    cases h : i.status <;>
      simp [passCount, warningCount, List.filter_cons, h] at ih ⊢ <;> omega

theorem score_nonneg (checks : List ComplianceCheckItem) :
    0 ≤ calculateComplianceScore checks := by
  unfold calculateComplianceScore
  split
  · exact le_refl 0
  · rw [round_eq]
    apply Int.floor_nonneg.mpr
    have h : (0 : ℚ) ≤ ((passCount checks : ℚ) + (warningCount checks : ℚ) * 0.5)
        / (checks.length : ℚ) * 100 := by positivity
    linarith

theorem score_le_100 (checks : List ComplianceCheckItem) :
    calculateComplianceScore checks ≤ 100 := by
  unfold calculateComplianceScore
  split
  · norm_num
  · rename_i hne0
    have hnn : 0 < checks.length := Nat.pos_of_ne_zero hne0
    have hn : (0 : ℚ) < (checks.length : ℚ) := by exact_mod_cast hnn
    have hw : (0 : ℚ) ≤ (warningCount checks : ℚ) := Nat.cast_nonneg _
    have hsum : (passCount checks : ℚ) + (warningCount checks : ℚ)
        ≤ (checks.length : ℚ) := by
      exact_mod_cast passCount_add_warningCount_le checks
    have hpw : (passCount checks : ℚ) + (warningCount checks : ℚ) * 0.5
        ≤ (checks.length : ℚ) := by linarith
    have hx : ((passCount checks : ℚ) + (warningCount checks : ℚ) * 0.5)
        / (checks.length : ℚ) * 100 ≤ 100 := by
      rw [div_mul_eq_mul_div, div_le_iff₀ hn]
      nlinarith
    rw [round_eq]
    have hlt : ((passCount checks : ℚ) + (warningCount checks : ℚ) * 0.5)
        / (checks.length : ℚ) * 100 + 1 / 2 < ((101 : ℤ) : ℚ) := by
      push_cast
      linarith
    have := Int.floor_lt.mpr hlt
    omega

theorem rulesFor_length (ty : ContractType) :
    (rulesFor ty).length
      = if ty = ContractType.visualization_dashboard then 7 else 4 := by
  cases ty <;> rfl

theorem performComplianceChecks_length (c : Str) (ty : ContractType) :
    (performComplianceChecks c ty).length
      = (rulesFor ty).length
        + (if exclusivityTriggered (lowerStr c) then 1 else 0) := by
  unfold performComplianceChecks
  by_cases hex : exclusivityTriggered (lowerStr c) <;> simp [hex]

theorem performComplianceChecks_length_pos (c : Str) (ty : ContractType) :
    0 < (performComplianceChecks c ty).length := by
  rw [performComplianceChecks_length, rulesFor_length]
  cases ty <;> simp

theorem determineRiskLevel_iff (checks : List ComplianceCheckItem) (score : ℤ) :
    (determineRiskLevel checks score = RiskLevel.critical ↔
      (0 < criticalFailCount checks ∨ score < 50))
    ∧ (determineRiskLevel checks score = RiskLevel.high ↔
      (¬(0 < criticalFailCount checks ∨ score < 50)
        ∧ (2 < failCount checks ∨ score < 70)))
    ∧ (determineRiskLevel checks score = RiskLevel.medium ↔
      (¬(0 < criticalFailCount checks ∨ score < 50)
        ∧ ¬(2 < failCount checks ∨ score < 70)
        ∧ (0 < failCount checks ∨ score < 85)))
    ∧ (determineRiskLevel checks score = RiskLevel.low ↔
      (¬(0 < criticalFailCount checks ∨ score < 50)
        ∧ ¬(2 < failCount checks ∨ score < 70)
        ∧ ¬(0 < failCount checks ∨ score < 85))) := by
  unfold determineRiskLevel
  split_ifs with h1 h2 h3 <;> simp_all

theorem criticalFailCount_pos_iff (checks : List ComplianceCheckItem) :
    0 < criticalFailCount checks ↔
      ∃ i ∈ checks, i.status = CheckStatus.fail
        ∧ i.category ∈ criticalCategories := by
  unfold criticalFailCount
  rw [length_filter_pos_iff]
  simp

/-- Claim C1: for every contract content and contract type, the risk level
returned by the audit is determined by the produced check items and the
compliance score in strict priority order — critical iff a fail item sits in
a critical category or the score is below 50; otherwise high iff more than
two failures or score below 70; otherwise medium iff at least one failure or
score below 85; otherwise low. -/
theorem claim_C1_risk_priority (c : Str) (ty : ContractType) :
    (determineRiskLevel (performComplianceChecks c ty)
        (calculateComplianceScore (performComplianceChecks c ty))
        = RiskLevel.critical ↔
      ((∃ i ∈ performComplianceChecks c ty, i.status = CheckStatus.fail
          ∧ i.category ∈ criticalCategories)
        ∨ calculateComplianceScore (performComplianceChecks c ty) < 50))
    ∧ (determineRiskLevel (performComplianceChecks c ty)
        (calculateComplianceScore (performComplianceChecks c ty))
        = RiskLevel.high ↔
      (¬((∃ i ∈ performComplianceChecks c ty, i.status = CheckStatus.fail
            ∧ i.category ∈ criticalCategories)
          ∨ calculateComplianceScore (performComplianceChecks c ty) < 50)
        ∧ (2 < failCount (performComplianceChecks c ty)
          ∨ calculateComplianceScore (performComplianceChecks c ty) < 70)))
    ∧ (determineRiskLevel (performComplianceChecks c ty)
        (calculateComplianceScore (performComplianceChecks c ty))
        = RiskLevel.medium ↔
      (¬((∃ i ∈ performComplianceChecks c ty, i.status = CheckStatus.fail
            ∧ i.category ∈ criticalCategories)
          ∨ calculateComplianceScore (performComplianceChecks c ty) < 50)
        ∧ ¬(2 < failCount (performComplianceChecks c ty)
          ∨ calculateComplianceScore (performComplianceChecks c ty) < 70)
        ∧ (1 ≤ failCount (performComplianceChecks c ty)
          ∨ calculateComplianceScore (performComplianceChecks c ty) < 85)))
    ∧ (determineRiskLevel (performComplianceChecks c ty)
        (calculateComplianceScore (performComplianceChecks c ty))
        = RiskLevel.low ↔
      (¬((∃ i ∈ performComplianceChecks c ty, i.status = CheckStatus.fail
            ∧ i.category ∈ criticalCategories)
          ∨ calculateComplianceScore (performComplianceChecks c ty) < 50)
        ∧ ¬(2 < failCount (performComplianceChecks c ty)
          ∨ calculateComplianceScore (performComplianceChecks c ty) < 70)
        ∧ ¬(1 ≤ failCount (performComplianceChecks c ty)
          ∨ calculateComplianceScore (performComplianceChecks c ty) < 85))) := by
  obtain ⟨b1, b2, b3, b4⟩ := determineRiskLevel_iff (performComplianceChecks c ty)
    (calculateComplianceScore (performComplianceChecks c ty))
  have hc := criticalFailCount_pos_iff (performComplianceChecks c ty)
  have hone : 0 < failCount (performComplianceChecks c ty)
      ↔ 1 ≤ failCount (performComplianceChecks c ty) := by omega
  exact ⟨b1.trans (or_congr hc Iff.rfl),
    b2.trans (and_congr (not_congr (or_congr hc Iff.rfl)) Iff.rfl),
    b3.trans (and_congr (not_congr (or_congr hc Iff.rfl))
      (and_congr Iff.rfl (or_congr hone Iff.rfl))),
    b4.trans (and_congr (not_congr (or_congr hc Iff.rfl))
      (and_congr Iff.rfl (not_congr (or_congr hone Iff.rfl))))⟩

/-- Claim C2: the compliance score is the rounded value of
100·(passes + 0.5·warnings)/total over all produced check items, it is 0 on
an empty check list, and it always lies between 0 and 100. -/
theorem claim_C2_score_formula_and_bounds (c : Str) (ty : ContractType) :
    calculateComplianceScore (performComplianceChecks c ty)
      = round ((100 : ℚ)
          * ((passCount (performComplianceChecks c ty) : ℚ)
            + (0.5 : ℚ) * (warningCount (performComplianceChecks c ty) : ℚ))
          / ((performComplianceChecks c ty).length : ℚ))
    ∧ calculateComplianceScore [] = 0
    ∧ 0 ≤ calculateComplianceScore (performComplianceChecks c ty)
    ∧ calculateComplianceScore (performComplianceChecks c ty) ≤ 100 := by
  refine ⟨?_, rfl, score_nonneg _, score_le_100 _⟩
  have hpos := performComplianceChecks_length_pos c ty
  have hne : ((performComplianceChecks c ty).length : ℚ) ≠ 0 := by
    exact_mod_cast Nat.pos_iff_ne_zero.mp hpos
  unfold calculateComplianceScore
  rw [if_neg (by omega)]
  congr 1
  field_simp
  ring

/-- Claim C3: the produced check list is exactly the items of the evaluated
rules — the four base rules, plus the three domain rules exactly for
visualization dashboards — in fixed order, each pass/fail according to its
keyword disjunction on the lowercased content (never warning), followed by
exactly one warning-status exclusivity item when and only when the
lowercased content contains 排他性 or exclusive; hence 4 resp. 7 items plus
the optional supplemental one. -/
theorem claim_C3_checks_composition (c : Str) (ty : ContractType) :
    (performComplianceChecks c ty).map (fun i => (i.category, i.requirement, i.status))
      = (rulesFor ty).map (fun r => (r.category, r.requirement,
          if ruleHolds (lowerStr c) r then CheckStatus.pass else CheckStatus.fail))
        ++ (if exclusivityTriggered (lowerStr c)
            then [("合同条款", "排他性条款审查", CheckStatus.warning)] else [])
    ∧ (performComplianceChecks c ty).length
      = (if ty = ContractType.visualization_dashboard then 7 else 4)
        + (if exclusivityTriggered (lowerStr c) then 1 else 0) := by
  constructor
  · unfold performComplianceChecks
    by_cases hex : exclusivityTriggered (lowerStr c) <;>
      simp [hex, itemOfRule, exclusivityItem, List.map_map, Function.comp]
  · rw [performComplianceChecks_length, rulesFor_length]

/-- Claim C4: the critical issue list is exactly the fail-status items whose
category lies in the designated three categories, formatted
"category: requirement", in check order — no pass or warning item ever
contributes. -/
theorem claim_C4_critical_issues (c : Str) (ty : ContractType) :
    identifyCriticalIssues (performComplianceChecks c ty)
      = ((performComplianceChecks c ty).filter (fun i =>
          i.status = CheckStatus.fail ∧ i.category ∈ criticalIssueCategories)).map
          (fun i => i.category ++ ": " ++ i.requirement) := by
  unfold identifyCriticalIssues
  rw [List.filter_filter]
  congr 1
  apply List.filter_congr
  intro i _
  simp [Bool.and_comm]

/-! ## Monotonicity of the score under appended keywords (claim C5) -/

theorem isPrefixOf_append {p s t : Str} (h : List.isPrefixOf p s = true) :
    List.isPrefixOf p (s ++ t) = true := by
  rw [ List.isPrefixOf_iff_prefix] at h ⊢
  exact h.trans (List.prefix_append s t)

theorem containsSub_nil_pat (s : Str) : containsSub [] s = true := by
  cases s <;> simp [containsSub]

theorem containsSub_append_left {p s : Str} (t : Str)
    (h : containsSub p s = true) : containsSub p (s ++ t) = true := by
  induction s with
  | nil =>
    simp only [containsSub] at h
    rw [ List.isPrefixOf_iff_prefix] at h
    rw [List.prefix_nil] at h
    subst h
    exact containsSub_nil_pat t
  | cons x xs ih =>
    simp only [containsSub, Bool.or_eq_true] at h ⊢
    rcases h with h | h
    · exact Or.inl (isPrefixOf_append h)
    · exact Or.inr (ih h)

theorem containsSub_append_right {p t : Str} (s : Str)
    (h : containsSub p t = true) : containsSub p (s ++ t) = true := by
  induction s with
  | nil => simpa using h
  | cons x xs ih =>
    simp only [List.cons_append, containsSub, Bool.or_eq_true]
    exact Or.inr ih

theorem containsSub_self (p : Str) : containsSub p p = true := by
  cases p with
  | nil => simp [containsSub]
  | cons x xs =>
    simp only [containsSub, Bool.or_eq_true]
    exact Or.inl (by rw [ List.isPrefixOf_iff_prefix])

theorem ruleHolds_append (content extra : Str) (r : ComplianceRule)
    (h : ruleHolds content r = true) : ruleHolds (content ++ extra) r = true := by
  unfold ruleHolds at h ⊢
  rw [List.any_eq_true] at h ⊢
  obtain ⟨k, hk, hc⟩ := h
  exact ⟨k, hk, containsSub_append_left extra hc⟩

theorem exclusivityTriggered_append (content extra : Str)
    (h : exclusivityTriggered content = true) :
    exclusivityTriggered (content ++ extra) = true := by
  unfold exclusivityTriggered at h ⊢
  rw [Bool.or_eq_true] at h ⊢
  rcases h with h | h
  · exact Or.inl (containsSub_append_left extra h)
  · exact Or.inr (containsSub_append_left extra h)

theorem filter_length_mono {α : Type} (l : List α) (p q : α → Bool)
    (mono : ∀ x ∈ l, p x = true → q x = true) :
    (l.filter p).length ≤ (l.filter q).length := by
  induction l with
  | nil => simp
  | cons x xs ih =>
    have ih2 := ih (fun y hy => mono y (List.mem_cons_of_mem x hy))
    by_cases hp : p x = true
    · have hq := mono x (List.mem_cons_self x xs) hp
      simp [List.filter_cons, hp, hq]
      omega
    · rw [Bool.not_eq_true] at hp
      by_cases hq : q x = true
      · simp [List.filter_cons, hp, hq]
        omega
      · rw [Bool.not_eq_true] at hq
        simp [List.filter_cons, hp, hq]
        omega

theorem filter_length_succ_le {α : Type} : ∀ (l : List α) (p q : α → Bool),
    (∀ x ∈ l, p x = true → q x = true) → ∀ a ∈ l, p a = false → q a = true →
    (l.filter p).length + 1 ≤ (l.filter q).length := by
  intro l
  induction l with
  | nil => intro p q _ a ha _ _; cases ha
  | cons x xs ih =>
    intro p q mono a ha hpa hqa
    have mono2 : ∀ y ∈ xs, p y = true → q y = true :=
      fun y hy => mono y (List.mem_cons_of_mem x hy)
    rcases List.mem_cons.mp ha with rfl | hmem
    · have hm := filter_length_mono xs p q mono2
      simp [List.filter_cons, hpa, hqa]
      omega
    · by_cases hp : p x = true
      · have hq := mono x (List.mem_cons_self x xs) hp
        have hrec := ih p q mono2 a hmem hpa hqa
        simp [List.filter_cons, hp, hq]
        omega
      · rw [Bool.not_eq_true] at hp
        have hrec := ih p q mono2 a hmem hpa hqa
        by_cases hq : q x = true
        · simp [List.filter_cons, hp, hq]
          omega
        · rw [Bool.not_eq_true] at hq
          simp [List.filter_cons, hp, hq]
          omega

theorem passCount_append (a b : List ComplianceCheckItem) :
    passCount (a ++ b) = passCount a + passCount b := by
  simp [passCount, List.filter_append]

theorem warningCount_append (a b : List ComplianceCheckItem) :
    warningCount (a ++ b) = warningCount a + warningCount b := by
  simp [warningCount, List.filter_append]

theorem passCount_map_items (content : Str) (rules : List ComplianceRule) :
    passCount (rules.map (itemOfRule content))
      = (rules.filter (fun x => ruleHolds content x)).length := by
  induction rules with
  | nil => simp [passCount]
  | cons r rs ih =>
    by_cases h : ruleHolds content r = true
    · simpa [passCount, itemOfRule, List.filter_cons, h] using ih
    · rw [Bool.not_eq_true] at h
      simpa [passCount, itemOfRule, List.filter_cons, h] using ih

theorem warningCount_map_items (content : Str) (rules : List ComplianceRule) :
    warningCount (rules.map (itemOfRule content)) = 0 := by
  induction rules with
  | nil => simp [warningCount]
  | cons r rs ih =>
    by_cases h : ruleHolds content r = true
    · simpa [warningCount, itemOfRule, List.filter_cons, h] using ih
    · rw [Bool.not_eq_true] at h
      simpa [warningCount, itemOfRule, List.filter_cons, h] using ih

theorem performComplianceChecks_passCount (c : Str) (ty : ContractType) :
    passCount (performComplianceChecks c ty)
      = ((rulesFor ty).filter (fun x => ruleHolds (lowerStr c) x)).length := by
  simp only [performComplianceChecks]
  rw [passCount_append, passCount_map_items]
  by_cases hex : exclusivityTriggered (lowerStr c) = true <;>
    simp [hex, passCount, exclusivityItem]

theorem performComplianceChecks_warningCount (c : Str) (ty : ContractType) :
    warningCount (performComplianceChecks c ty)
      = (if exclusivityTriggered (lowerStr c) then 1 else 0) := by
  simp only [performComplianceChecks]
  rw [warningCount_append, warningCount_map_items]
  by_cases hex : exclusivityTriggered (lowerStr c) = true <;>
    simp [hex, warningCount, exclusivityItem]

theorem keywords_lowercase :
    ∀ r ∈ baseChecks ++ visualizationChecks, ∀ k ∈ r.keywords,
      lowerStr k = k := by decide

theorem rulesFor_subset (ty : ContractType) (r : ComplianceRule)
    (hr : r ∈ rulesFor ty) : r ∈ baseChecks ++ visualizationChecks := by
  unfold rulesFor at hr
  by_cases h : ty = ContractType.visualization_dashboard
  · rw [if_pos h] at hr; exact hr
  · rw [if_neg h] at hr; exact List.mem_append_left _ hr

theorem round_mono_rat {x y : ℚ} (h : x ≤ y) : round x ≤ round y := by
  rw [round_eq, round_eq]
  exact Int.floor_mono (by linarith)

/-- Claim C5: for a fixed rule set and contract type, appending to the
content a keyword of a rule that failed on it can only raise or keep the
compliance score. -/
theorem claim_C5_score_monotone (c k : Str) (ty : ContractType)
    (r : ComplianceRule) (hr : r ∈ rulesFor ty) (hk : k ∈ r.keywords)
    (hfail : ruleHolds (lowerStr c) r = false) :
    calculateComplianceScore (performComplianceChecks c ty)
      ≤ calculateComplianceScore (performComplianceChecks (c ++ k) ty) := by
  have hklow : lowerStr k = k :=
    keywords_lowercase r (rulesFor_subset ty r hr) k hk
  have hL : lowerStr (c ++ k) = lowerStr c ++ lowerStr k := by
    simp [lowerStr]
  have hrule2 : ruleHolds (lowerStr (c ++ k)) r = true := by
    rw [hL, hklow]
    unfold ruleHolds
    rw [List.any_eq_true]
    exact ⟨k, hk, containsSub_append_right _ (containsSub_self k)⟩
  have hmono : ∀ x ∈ rulesFor ty, ruleHolds (lowerStr c) x = true →
      ruleHolds (lowerStr (c ++ k)) x = true := by
    intro x _ hx
    rw [hL]
    exact ruleHolds_append _ _ x hx
  have hPP : ((rulesFor ty).filter (fun x => ruleHolds (lowerStr c) x)).length + 1
      ≤ ((rulesFor ty).filter (fun x => ruleHolds (lowerStr (c ++ k)) x)).length :=
    filter_length_succ_le (rulesFor ty) _ _ hmono r hr hfail hrule2
  have hPm : ((rulesFor ty).filter (fun x => ruleHolds (lowerStr c) x)).length
      ≤ (rulesFor ty).length := List.length_filter_le _ _
  have hm : 0 < (rulesFor ty).length := by
    rw [rulesFor_length]; cases ty <;> simp
  have hpc1 := performComplianceChecks_passCount c ty
  have hpc2 := performComplianceChecks_passCount (c ++ k) ty
  have hwc1 := performComplianceChecks_warningCount c ty
  have hwc2 := performComplianceChecks_warningCount (c ++ k) ty
  have hlen1 := performComplianceChecks_length c ty
  have hlen2 := performComplianceChecks_length (c ++ k) ty
  set m := (rulesFor ty).length with hmdef
  set P := ((rulesFor ty).filter (fun x => ruleHolds (lowerStr c) x)).length
    with hPdef
  set Q := ((rulesFor ty).filter (fun x => ruleHolds (lowerStr (c ++ k)) x)).length
    with hQdef
  have hPQ : (P : ℚ) + 1 ≤ (Q : ℚ) := by exact_mod_cast hPP
  have hPmQ : (P : ℚ) ≤ (m : ℚ) := by exact_mod_cast hPm
  have hmQ : (0 : ℚ) < (m : ℚ) := by exact_mod_cast hm
  unfold calculateComplianceScore
  rw [if_neg (by have := performComplianceChecks_length_pos c ty; omega),
    if_neg (by have := performComplianceChecks_length_pos (c ++ k) ty; omega)]
  apply round_mono_rat
  rw [hpc1, hpc2, hwc1, hwc2, hlen1, hlen2]
  by_cases he : exclusivityTriggered (lowerStr c) = true
  · have he2 : exclusivityTriggered (lowerStr (c ++ k)) = true := by
      rw [hL]
      exact exclusivityTriggered_append (lowerStr c) (lowerStr k) he
    simp only [he, he2, if_true]
    push_cast
    rw [div_mul_eq_mul_div, div_mul_eq_mul_div,
      div_le_div_iff₀ (by linarith) (by linarith)]
    nlinarith [mul_le_mul_of_nonneg_right
      (show (P : ℚ) + 1 * 0.5 ≤ (Q : ℚ) + 1 * 0.5 by linarith)
      (show (0 : ℚ) ≤ 100 * ((m : ℚ) + 1) by positivity)]
  · rw [Bool.not_eq_true] at he
    by_cases he2 : exclusivityTriggered (lowerStr (c ++ k)) = true
    · simp only [he, he2, if_true, Bool.false_eq_true, if_false]
      push_cast
      rw [div_mul_eq_mul_div, div_mul_eq_mul_div,
        div_le_div_iff₀ (by linarith) (by linarith)]
      nlinarith [mul_le_mul_of_nonneg_right hPQ
        (show (0 : ℚ) ≤ (m : ℚ) by linarith), hPmQ, hmQ]
    · rw [Bool.not_eq_true] at he2
      simp only [he, he2, Bool.false_eq_true, if_false]
      push_cast
      rw [div_mul_eq_mul_div, div_mul_eq_mul_div,
        div_le_div_iff₀ (by linarith) (by linarith)]
      nlinarith [mul_le_mul_of_nonneg_right
        (show (P : ℚ) ≤ (Q : ℚ) by linarith)
        (show (0 : ℚ) ≤ 100 * (m : ℚ) by positivity)]

/-- Witness for claim C5 at concrete input: the empty content fails the
data-protection rule, and appending its keyword 隐私 does not lower the
score. -/
theorem claim_C5_score_monotone_witness :
    calculateComplianceScore
        (performComplianceChecks [] ContractType.service_agreement)
      ≤ calculateComplianceScore
        (performComplianceChecks ([] ++ "隐私".toList)
          ContractType.service_agreement) :=
  claim_C5_score_monotone [] "隐私".toList ContractType.service_agreement
    (baseChecks.getD 0
      { category := "", requirement := "", keywords := [],
        description := "", failRecommendation := "" })
    (by decide) (by decide) (by decide)

/-- Claim C6: whenever validation or extraction fails, the file-audit
wrapper returns the well-formed synthetic result — critical risk, score 0,
exactly one fail item describing the parse failure, and the fixed
recommendations steering towards supported formats — instead of letting the
failure propagate (the wrapper function is total and lands in
`auditFailureResult` on every failing input). -/
theorem claim_C6_wrapper_failure (fileBufferSize : ℕ) (fileName : Str)
    (ty : ContractType) (contractId : String) (companyName : Option String)
    (mimeType : Option String) (includeExtractedContent : Bool)
    (parseResult : FileParseResult) (now : String)
    (h : validateFileType fileName mimeType = false
      ∨ parseResult.success = false) :
    (auditContractFile fileBufferSize fileName ty contractId companyName
        mimeType includeExtractedContent parseResult now).overallRiskLevel
      = RiskLevel.critical
    ∧ (auditContractFile fileBufferSize fileName ty contractId companyName
        mimeType includeExtractedContent parseResult now).complianceScore = 0
    ∧ (auditContractFile fileBufferSize fileName ty contractId companyName
        mimeType includeExtractedContent parseResult now).complianceChecks
      = [parseFailureCheckItem]
    ∧ (auditContractFile fileBufferSize fileName ty contractId companyName
        mimeType includeExtractedContent parseResult now).recommendations
      = failureRecommendations := by
  unfold auditContractFile
  by_cases hv : validateFileType fileName mimeType = false
  · rw [if_pos hv]
    exact ⟨rfl, rfl, rfl, rfl⟩
  · rcases h with h | h
    · exact absurd h hv
    · rw [if_neg hv, if_pos h]
      exact ⟨rfl, rfl, rfl, rfl⟩

/-- Sample successful parse result used as a concrete witness input. -/
def sampleParseResult : FileParseResult :=
  { content := []
    metadata :=
      { fileName := []
        fileType := ""
        fileSize := 0
        pageCount := none
        wordCount := 0
        extractedAt := "" }
    success := true
    error := none }

/-- Witness for claim C6 at a concrete input: a .doc file fails validation
and yields the synthetic critical result. -/
theorem claim_C6_wrapper_failure_witness :
    (auditContractFile 100 "contract.doc".toList
        ContractType.service_agreement "c-1" none none false
        sampleParseResult "t").overallRiskLevel = RiskLevel.critical
    ∧ (auditContractFile 100 "contract.doc".toList
        ContractType.service_agreement "c-1" none none false
        sampleParseResult "t").complianceScore = 0
    ∧ (auditContractFile 100 "contract.doc".toList
        ContractType.service_agreement "c-1" none none false
        sampleParseResult "t").complianceChecks = [parseFailureCheckItem]
    ∧ (auditContractFile 100 "contract.doc".toList
        ContractType.service_agreement "c-1" none none false
        sampleParseResult "t").recommendations = failureRecommendations :=
  claim_C6_wrapper_failure 100 "contract.doc".toList
    ContractType.service_agreement "c-1" none none false
    sampleParseResult "t" (Or.inl (by decide))

/-- Claim C10: when the extracted text has (after cleaning) a trimmed length
below 50 characters, the parser fails with empty content, and the file-audit
wrapper consequently returns the synthetic critical result with score 0 —
the 50-character minimum is enforced by the file pipeline. -/
theorem claim_C10_min_length_gate (fileName : Str) (mimeType : Option String)
    (bufferSize : ℕ) (detectedMimeType : String) (pageCount : Option ℕ)
    (cleaned : Str) (now now2 : String) (ty : ContractType)
    (contractId : String) (companyName : Option String)
    (fileBufferSize : ℕ) (includeExtractedContent : Bool)
    (h : (trimStr cleaned).length < 50) :
    (parseContractFile fileName mimeType bufferSize detectedMimeType
        (Except.ok (cleaned, pageCount)) now).success = false
    ∧ (parseContractFile fileName mimeType bufferSize detectedMimeType
        (Except.ok (cleaned, pageCount)) now).content = []
    ∧ (auditContractFile fileBufferSize fileName ty contractId companyName
        mimeType includeExtractedContent
        (parseContractFile fileName mimeType bufferSize detectedMimeType
          (Except.ok (cleaned, pageCount)) now) now2).overallRiskLevel
      = RiskLevel.critical
    ∧ (auditContractFile fileBufferSize fileName ty contractId companyName
        mimeType includeExtractedContent
        (parseContractFile fileName mimeType bufferSize detectedMimeType
          (Except.ok (cleaned, pageCount)) now) now2).complianceScore = 0 := by
  have hparse : (parseContractFile fileName mimeType bufferSize
      detectedMimeType (Except.ok (cleaned, pageCount)) now).success = false
      ∧ (parseContractFile fileName mimeType bufferSize detectedMimeType
        (Except.ok (cleaned, pageCount)) now).content = [] := by
    simp only [parseContractFile]
    by_cases hs : bufferSize > 10 * 1024 * 1024
    · rw [if_pos hs]
      exact ⟨rfl, rfl⟩
    · rw [if_neg hs, if_pos (Or.inr h)]
      exact ⟨rfl, rfl⟩
  refine ⟨hparse.1, hparse.2, ?_, ?_⟩ <;>
  · unfold auditContractFile
    by_cases hv : validateFileType fileName mimeType = false
    · rw [if_pos hv]
      rfl
    · rw [if_neg hv, if_pos hparse.1]
      rfl

/-- Witness for claim C10 at a concrete input: a five-character extraction
is rejected and audited as critical. -/
theorem claim_C10_min_length_gate_witness :
    (parseContractFile "a.txt".toList none 100 "text/plain"
        (Except.ok ("short".toList, none)) "t").success = false
    ∧ (parseContractFile "a.txt".toList none 100 "text/plain"
        (Except.ok ("short".toList, none)) "t").content = []
    ∧ (auditContractFile 100 "a.txt".toList ContractType.service_agreement
        "c-1" none none false
        (parseContractFile "a.txt".toList none 100 "text/plain"
          (Except.ok ("short".toList, none)) "t") "t2").overallRiskLevel
      = RiskLevel.critical
    ∧ (auditContractFile 100 "a.txt".toList ContractType.service_agreement
        "c-1" none none false
        (parseContractFile "a.txt".toList none 100 "text/plain"
          (Except.ok ("short".toList, none)) "t") "t2").complianceScore = 0 :=
  claim_C10_min_length_gate "a.txt".toList none 100 "text/plain" none
    "short".toList "t" "t2" ContractType.service_agreement "c-1" none 100
    false (by decide)

/-- Claim C9: the output of the route planner does not depend on the
`startLocation` argument — for fixed resolved destinations, style and
duration, any two start locations (or none) give identical plans. -/
theorem claim_C9_startLocation_inert (results : List GeoResult)
    (style : TravelStyle) (duration : ℕ) (s1 s2 : Option String) :
    planTravelRoute results style duration s1
      = planTravelRoute results style duration s2 := rfl

/-! ## Characterization of the nearest-neighbour ordering (claims C7, C8) -/

theorem nearestGo_main (d : RouteData → ℝ) :
    ∀ (ls : List RouteData) (i : ℕ) (best : ℕ × ℝ),
      (nearestGo d ls i best = best.1 ∧ ∀ x ∈ ls, best.2 ≤ d x)
      ∨ (∃ j, ∃ hj : j < ls.length,
          nearestGo d ls i best = i + j
          ∧ d (ls.get ⟨j, hj⟩) < best.2
          ∧ (∀ t (ht : t < ls.length), d (ls.get ⟨j, hj⟩) ≤ d (ls.get ⟨t, ht⟩))
          ∧ (∀ t (ht : t < j), d (ls.get ⟨j, hj⟩)
              < d (ls.get ⟨t, Nat.lt_trans ht hj⟩))) := by
  intro ls
  induction ls with
  | nil =>
    intro i best
    exact Or.inl ⟨rfl, by simp⟩
  | cons l ls ih =>
    intro i best
    by_cases h : d l < best.2
    · have step : nearestGo d (l :: ls) i best = nearestGo d ls (i + 1) (i, d l) := by
        simp [nearestGo, h]
      rcases ih (i + 1) (i, d l) with ⟨heq, hall⟩ | ⟨j, hj, heq, hlt, hmin, hfirst⟩
      · refine Or.inr ⟨0, by simp, ?_, h, ?_, ?_⟩
        · rw [step, heq]
          rfl
        · intro t ht
          cases t with
          | zero => exact le_refl _
          | succ u =>
            have hu : u < ls.length := by simpa using ht
            exact hall _ (List.get_mem ls u hu)
        · intro t ht
          exact absurd ht (Nat.not_lt_zero t)
      · refine Or.inr ⟨j + 1, by simpa using Nat.succ_lt_succ hj, ?_, lt_trans hlt h, ?_, ?_⟩
        · rw [step, heq]; omega
        · intro t ht
          cases t with
          | zero => exact le_of_lt hlt
          | succ u => exact hmin u (by simpa using ht)
        · intro t ht
          cases t with
          | zero => exact hlt
          | succ u => exact hfirst u (by omega)
    · have step : nearestGo d (l :: ls) i best = nearestGo d ls (i + 1) best := by
        simp [nearestGo, h]
      have hbl : best.2 ≤ d l := not_lt.mp h
      rcases ih (i + 1) best with ⟨heq, hall⟩ | ⟨j, hj, heq, hlt, hmin, hfirst⟩
      · refine Or.inl ⟨by rw [step, heq], ?_⟩
        intro x hx
        rcases List.mem_cons.mp hx with rfl | hx
        · exact hbl
        · exact hall x hx
      · refine Or.inr ⟨j + 1, by simpa using Nat.succ_lt_succ hj,
          by rw [step, heq]; omega, hlt, ?_, ?_⟩
        · intro t ht
          cases t with
          | zero => exact le_of_lt (lt_of_lt_of_le hlt hbl)
          | succ u => exact hmin u (by simpa using ht)
        · intro t ht
          cases t with
          | zero => exact lt_of_lt_of_le hlt hbl
          | succ u => exact hfirst u (by omega)

theorem nearestIdx_spec (d : RouteData → ℝ) (rem : List RouteData)
    (hne : rem ≠ []) :
    ∃ hlt : nearestIdx d rem < rem.length,
      (∀ t (ht : t < rem.length),
        d (rem.get ⟨nearestIdx d rem, hlt⟩) ≤ d (rem.get ⟨t, ht⟩))
      ∧ (∀ t (ht : t < nearestIdx d rem),
        d (rem.get ⟨nearestIdx d rem, hlt⟩)
          < d (rem.get ⟨t, Nat.lt_trans ht hlt⟩)) := by
  match rem with
  | [] => exact absurd rfl hne
  | l :: ls =>
    rcases nearestGo_main d ls 1 (0, d l) with ⟨heq, hall⟩ |
      ⟨j, hj, heq, hlt, hmin, hfirst⟩
    · have h0 : nearestIdx d (l :: ls) = 0 := by simp [nearestIdx, heq]
      rw [h0]
      refine ⟨by simp, ?_, ?_⟩
      · intro t ht
        cases t with
        | zero => exact le_refl _
        | succ u =>
          have hu : u < ls.length := by simpa using ht
          exact hall _ (List.get_mem ls u hu)
      · intro t ht
        exact absurd ht (Nat.not_lt_zero t)
    · have h0 : nearestIdx d (l :: ls) = j + 1 := by
        simp [nearestIdx, heq]; omega
      rw [h0]
      refine ⟨by simpa using Nat.succ_lt_succ hj, ?_, ?_⟩
      · intro t ht
        cases t with
        | zero => exact le_of_lt hlt
        | succ u => exact hmin u (by simpa using ht)
      · intro t ht
        cases t with
        | zero => exact hlt
        | succ u => exact hfirst u (by omega)

/-- The claim-side description of the nearest-neighbour heuristic: starting
from `cur`, the next stop is always the remaining location of minimum
distance to the last-placed one, ties broken by the earliest position
(strictly smaller distance than every earlier remaining location), and it is
removed from the remaining pool. -/
inductive IsNNChain (d : RouteData → RouteData → ℝ) :
    RouteData → List RouteData → List RouteData → Prop
  | nil (cur : RouteData) : IsNNChain d cur [] []
  | step (cur : RouteData) (rem res : List RouteData) (i : ℕ)
      (hi : i < rem.length)
      (hmin : ∀ t (ht : t < rem.length),
        d cur (rem.get ⟨i, hi⟩) ≤ d cur (rem.get ⟨t, ht⟩))
      (hfirst : ∀ t (ht : t < i),
        d cur (rem.get ⟨i, hi⟩) < d cur (rem.get ⟨t, Nat.lt_trans ht hi⟩))
      (hrest : IsNNChain d (rem.get ⟨i, hi⟩) (rem.eraseIdx i) res) :
      IsNNChain d cur rem (rem.get ⟨i, hi⟩ :: res)

theorem optimizeLoop_nil (cur : RouteData) : optimizeLoop cur [] = [] := by
  rw [optimizeLoop]

theorem optimizeLoop_cons (cur r : RouteData) (rs : List RouteData) :
    optimizeLoop cur (r :: rs)
      = (r :: rs).getD (nearestIdx (locDistance cur) (r :: rs)) cur
        :: optimizeLoop
          ((r :: rs).getD (nearestIdx (locDistance cur) (r :: rs)) cur)
          ((r :: rs).eraseIdx (nearestIdx (locDistance cur) (r :: rs))) := by
  rw [optimizeLoop]

theorem getD_eq_get (l : List RouteData) (i : ℕ) (dflt : RouteData)
    (h : i < l.length) : l.getD i dflt = l.get ⟨i, h⟩ := by
  rw [List.getD_eq_getElem?_getD, List.getElem?_eq_getElem h]
  simp [List.get_eq_getElem]

theorem optimizeLoop_chain : ∀ (n : ℕ) (rem : List RouteData),
    rem.length ≤ n → ∀ cur,
      IsNNChain locDistance cur rem (optimizeLoop cur rem) := by
  intro n
  induction n with
  | zero =>
    intro rem hlen cur
    have hnil : rem = [] := List.length_eq_zero.mp (Nat.le_zero.mp hlen)
    subst hnil
    rw [optimizeLoop_nil]
    exact IsNNChain.nil cur
  | succ n ih =>
    intro rem hlen cur
    match rem with
    | [] =>
      rw [optimizeLoop_nil]
      exact IsNNChain.nil cur
    | r :: rs =>
      obtain ⟨hlt, hmin, hfirst⟩ :=
        nearestIdx_spec (locDistance cur) (r :: rs) (by simp)
      rw [optimizeLoop_cons,
        getD_eq_get (r :: rs) (nearestIdx (locDistance cur) (r :: rs)) cur hlt]
      refine IsNNChain.step cur (r :: rs) _ _ hlt hmin hfirst ?_
      apply ih
      rw [List.length_eraseIdx_of_lt hlt]
      simp only [List.length_cons] at hlen ⊢
      omega

theorem perm_get_cons_eraseIdx :
    ∀ (l : List RouteData) (i : ℕ) (h : i < l.length),
      l.Perm (l.get ⟨i, h⟩ :: l.eraseIdx i) := by
  intro l
  induction l with
  | nil => intro i h; exact absurd h (Nat.not_lt_zero i)
  | cons x xs ih =>
    intro i h
    cases i with
    | zero => exact List.Perm.refl _
    | succ j =>
      have hj : j < xs.length := by simpa using h
      exact ((ih j hj).cons x).trans
        (List.Perm.swap (xs.get ⟨j, hj⟩) x (xs.eraseIdx j))

theorem optimizeLoop_perm : ∀ (n : ℕ) (rem : List RouteData),
    rem.length ≤ n → ∀ cur, (optimizeLoop cur rem).Perm rem := by
  intro n
  induction n with
  | zero =>
    intro rem hlen cur
    have hnil : rem = [] := List.length_eq_zero.mp (Nat.le_zero.mp hlen)
    subst hnil
    rw [optimizeLoop_nil]
  | succ n ih =>
    intro rem hlen cur
    match rem with
    | [] => rw [optimizeLoop_nil]
    | r :: rs =>
      have hlt : nearestIdx (locDistance cur) (r :: rs) < (r :: rs).length :=
        nearestIdx_lt (locDistance cur) (r :: rs) (by simp)
      rw [optimizeLoop_cons,
        getD_eq_get (r :: rs) (nearestIdx (locDistance cur) (r :: rs)) cur hlt]
      have hrec : (optimizeLoop
          ((r :: rs).get ⟨nearestIdx (locDistance cur) (r :: rs), hlt⟩)
          ((r :: rs).eraseIdx (nearestIdx (locDistance cur) (r :: rs)))).Perm
          ((r :: rs).eraseIdx (nearestIdx (locDistance cur) (r :: rs))) := by
        apply ih
        rw [List.length_eraseIdx_of_lt hlt]
        simp only [List.length_cons] at hlen ⊢
        omega
      exact (hrec.cons _).trans
        (perm_get_cons_eraseIdx (r :: rs) _ hlt).symm

theorem optimizeRoute_perm (locs : List RouteData) :
    (optimizeRoute locs).Perm locs := by
  unfold optimizeRoute
  by_cases h : locs.length ≤ 2
  · rw [if_pos h]
  · rw [if_neg h]
    cases locs with
    | nil => exact List.Perm.refl _
    | cons l ls => exact (optimizeLoop_perm ls.length ls le_rfl l).cons l

/-- The spec-side route-shape predicate: the produced order starts at the
first resolved location and continues as a nearest-neighbour chain over the
remaining ones. -/
def IsNNRouteFrom (d : RouteData → RouteData → ℝ)
    (locs ord : List RouteData) : Prop :=
  match locs, ord with
  | [], [] => True
  | l0 :: rest, o0 :: os => o0 = l0 ∧ IsNNChain d l0 rest os
  | _, _ => False

theorem chain_self_of_short (cur : RouteData) (ls : List RouteData)
    (h : ls.length ≤ 1) : IsNNChain locDistance cur ls ls := by
  match ls with
  | [] => exact IsNNChain.nil cur
  | [x] =>
    exact IsNNChain.step cur [x] [] 0 (by simp)
      (fun t ht => by
        have ht0 : t = 0 := by simpa using ht
        subst ht0
        exact le_refl _)
      (fun t ht => absurd ht (Nat.not_lt_zero t))
      (IsNNChain.nil x)
  | x :: y :: rest => simp at h

theorem optimizeRoute_isNN (locs : List RouteData) :
    IsNNRouteFrom locDistance locs (optimizeRoute locs) := by
  unfold optimizeRoute
  by_cases h : locs.length ≤ 2
  · rw [if_pos h]
    cases locs with
    | nil => trivial
    | cons l ls =>
      refine ⟨rfl, ?_⟩
      apply chain_self_of_short
      simp only [List.length_cons] at h
      omega
  · rw [if_neg h]
    cases locs with
    | nil => trivial
    | cons l ls => exact ⟨rfl, optimizeLoop_chain ls.length ls le_rfl l⟩

/-- Claim C7: for every non-empty list of resolved locations the planned
route is the nearest-neighbour order over the resolved locations starting
from the first one (ties to the earliest remaining position), and the
reported total distance is the rounded sum of consecutive-pair haversine
distances along that final order. -/
theorem claim_C7_nearest_neighbor_route (results : List GeoResult)
    (style : TravelStyle) (duration : ℕ) (startLocation : Option String)
    (h : results ≠ []) :
    ∃ plan : RoutePlan,
      planTravelRoute results style duration startLocation = Except.ok plan
      ∧ IsNNRouteFrom locDistance (results.map (resolveLocation style))
          (optimizeRoute (results.map (resolveLocation style)))
      ∧ plan.route = detailRoute style duration results.length
          (optimizeRoute (results.map (resolveLocation style)))
      ∧ plan.totalDistance
        = round (calculateTotalDistance
            (optimizeRoute (results.map (resolveLocation style)))) := by
  have hne : ¬(results.length = 0) := fun hh => h (List.length_eq_zero.mp hh)
  simp only [planTravelRoute, List.length_map]
  rw [if_neg hne]
  exact ⟨_, rfl, optimizeRoute_isNN _, rfl, rfl⟩

/-- Sample geocoding result used by the route witnesses. -/
def parisSample : GeoResult :=
  { name := "Paris"
    latitude := 0
    longitude := 0
    country := "France"
    admin1 := none }

/-- Second sample geocoding result used by the route witnesses. -/
def romeSample : GeoResult :=
  { name := "Rome"
    latitude := 1
    longitude := 1
    country := "Italy"
    admin1 := none }

/-- Witness for claim C7 at a concrete one-destination input. -/
theorem claim_C7_nearest_neighbor_route_witness :
    ∃ plan : RoutePlan,
      planTravelRoute [parisSample] TravelStyle.budget 6 none = Except.ok plan
      ∧ IsNNRouteFrom locDistance
          ([parisSample].map (resolveLocation TravelStyle.budget))
          (optimizeRoute ([parisSample].map (resolveLocation TravelStyle.budget)))
      ∧ plan.route = detailRoute TravelStyle.budget 6 1
          (optimizeRoute ([parisSample].map (resolveLocation TravelStyle.budget)))
      ∧ plan.totalDistance
        = round (calculateTotalDistance
            (optimizeRoute
              ([parisSample].map (resolveLocation TravelStyle.budget)))) :=
  claim_C7_nearest_neighbor_route [parisSample] TravelStyle.budget 6 none
    (by simp)

/-- Claim C8: for every planning call on N ≥ 1 resolved destinations with
duration d, the route consists of exactly those N destinations, the order
fields are the contiguous sequence 1..N, every stop carries
recommendedDays = max 1 (d / N) (the per-city lookup value is not used for
this field), and totalDuration is d. -/
theorem claim_C8_route_completeness (results : List GeoResult)
    (style : TravelStyle) (duration : ℕ) (startLocation : Option String)
    (h : results ≠ []) :
    ∃ plan : RoutePlan,
      planTravelRoute results style duration startLocation = Except.ok plan
      ∧ (plan.route.map (fun s => (s.name, s.latitude, s.longitude))).Perm
          (results.map (fun g => (g.name, g.latitude, g.longitude)))
      ∧ plan.route.map (fun s => s.order) = List.range' 1 results.length
      ∧ (∀ s ∈ plan.route,
          s.recommendedDays = max 1 (duration / results.length))
      ∧ plan.totalDuration = duration := by
  have hne : ¬(results.length = 0) := fun hh => h (List.length_eq_zero.mp hh)
  simp only [planTravelRoute, List.length_map]
  rw [if_neg hne]
  refine ⟨_, rfl, ?_, ?_, ?_, rfl⟩
  · -- membership: the detailed stops project onto the resolved inputs
    have hproj : (detailRoute style duration results.length
        (optimizeRoute (results.map (resolveLocation style)))).map
          (fun s => (s.name, s.latitude, s.longitude))
        = (optimizeRoute (results.map (resolveLocation style))).map
          (fun loc => (loc.name, loc.latitude, loc.longitude)) := by
      unfold detailRoute
      rw [List.map_map]
      rw [show ((fun s : PlaceStop => (s.name, s.latitude, s.longitude)) ∘
          (fun p : ℕ × RouteData => detailStop style duration results.length
            (optimizeRoute (results.map (resolveLocation style))) p.1 p.2))
          = ((fun loc : RouteData => (loc.name, loc.latitude, loc.longitude))
            ∘ Prod.snd) from rfl]
      rw [← List.map_map, List.enum_eq_enumFrom, List.enumFrom_map_snd]
    rw [hproj]
    have hperm := (optimizeRoute_perm (results.map (resolveLocation style))).map
      (fun loc : RouteData => (loc.name, loc.latitude, loc.longitude))
    have heq : (results.map (resolveLocation style)).map
        (fun loc : RouteData => (loc.name, loc.latitude, loc.longitude))
        = results.map (fun g => (g.name, g.latitude, g.longitude)) := by
      rw [List.map_map]
      rfl
    exact heq ▸ hperm
  · -- orders 1..N
    unfold detailRoute
    rw [List.map_map]
    rw [show ((fun s : PlaceStop => s.order) ∘
        (fun p : ℕ × RouteData => detailStop style duration results.length
          (optimizeRoute (results.map (resolveLocation style))) p.1 p.2))
        = ((fun i : ℕ => 1 + i) ∘ Prod.fst) from
      funext fun p => Nat.add_comm p.1 1]
    rw [← List.map_map, List.enum_eq_enumFrom, List.enumFrom_map_fst]
    have hlen : (optimizeRoute (results.map (resolveLocation style))).length
        = results.length := by
      rw [(optimizeRoute_perm (results.map (resolveLocation style))).length_eq,
        List.length_map]
    rw [hlen, List.map_add_range']
  · -- uniform day split on every stop
    intro s hs
    unfold detailRoute at hs
    obtain ⟨p, hp, rfl⟩ := List.mem_map.mp hs
    rfl

/-- Witness for claim C8 at a concrete one-destination input. -/
theorem claim_C8_route_completeness_witness :
    ∃ plan : RoutePlan,
      planTravelRoute [romeSample] TravelStyle.comfort 7 (some "Paris")
        = Except.ok plan
      ∧ (plan.route.map (fun s => (s.name, s.latitude, s.longitude))).Perm
          ([romeSample].map (fun g => (g.name, g.latitude, g.longitude)))
      ∧ plan.route.map (fun s => s.order) = List.range' 1 1
      ∧ (∀ s ∈ plan.route, s.recommendedDays = max 1 (7 / 1))
      ∧ plan.totalDuration = 7 :=
  claim_C8_route_completeness [romeSample] TravelStyle.comfort 7
    (some "Paris") (by simp)
